import Mathlib

/-!
Verification of the gonic jukebox engine (package `jukebox`).

The Go source under scrutiny is `jukebox.go` (the engine: playlist state,
control loop, status derivation) together with `player.go` (the PCM format
constants and the `Player` interface).  The development below is a shallow
embedding: the engine's mutable state becomes a `Jukebox` record, every
exported method becomes a pure function `Jukebox → ... → Jukebox × List Effect`
where the effect list records the externally observable calls the method makes
(signals sent on the `next` channel, calls into the `Player`, log output), and
machine arithmetic (Go `int`/`int64`/`uint64`) is modelled on `Int`/`Nat` with
explicit reduction modulo 2^64 at the points where the Go code performs
64-bit operations that can wrap.
-/

namespace Gonic

/-- Modulus of Go's 64-bit machine words: 2^64. -/
def wordMod : Nat := 18446744073709551616

/-- 2^63, the boundary between non-negative and negative `int64` values. -/
def wordHalf : Nat := 9223372036854775808

/-- Reduce a `Nat` to Go `uint64` range, as Go does implicitly on every
`uint64` operation. -/
def u64 (n : Nat) : Nat := n % wordMod

/-- Go's conversion `uint64(x)` of a (possibly negative) `int` value `x`:
two's-complement reinterpretation, i.e. `x mod 2^64`. -/
def u64ofInt (x : Int) : Nat := (x % (wordMod : Int)).toNat

/-- Go `uint64` subtraction `a - b`: wraps modulo 2^64. -/
def u64sub (a b : Nat) : Nat := (a % wordMod + (wordMod - b % wordMod)) % wordMod

/-- Go's conversion `int(n)` of a `uint64` value `n`: two's-complement
reinterpretation into `[-2^63, 2^63)`. -/
def intOfU64 (n : Nat) : Int :=
  if n % wordMod < wordHalf then ((n % wordMod : Nat) : Int)
  else ((n % wordMod : Nat) : Int) - (wordMod : Int)

/-- Wrap an integer into `int64` range `[-2^63, 2^63)`, as Go `int64`
arithmetic does on overflow. -/
def int64Wrap (x : Int) : Int := (x + (wordHalf : Int)) % (wordMod : Int) - (wordHalf : Int)

/-- Go `time.Duration` is an `int64` count of nanoseconds; we carry it as an
`Int` that is kept in `int64` range by `int64Wrap` at the operations that
can overflow. -/
abbrev Duration := Int

/-- Nanoseconds in one second (`time.Second`). -/
def nsPerSec : Int := 1000000000

/-- The duration `time.Duration(offsetSecs) * time.Second` computed by Go:
an `int64` multiplication, which wraps modulo 2^64 on overflow. -/
def durFromSecs (offsetSecs : Int) : Duration := int64Wrap (offsetSecs * nsPerSec)

/-- The integer number of whole seconds Go reports for a duration `d` via
`int(d.Seconds())`: `Seconds` divides by 1e9 and `int` truncates toward zero.
Go routes this through `float64`; the float computation agrees with exact
truncated division for every whole-second duration (every `seek` reachable
without `int64` overflow), which is what we model. -/
def seekSecs (d : Duration) : Int := Int.tdiv d nsPerSec

/-- From `player.go`: `SampleRate = 48_000`. -/
def SampleRate : Nat := 48000

/-- From `player.go`: `BitsPerSample = 16`. -/
def BitsPerSample : Nat := 16

/-- From `player.go`: `Channels = 2`. -/
def Channels : Nat := 2

/-- From `player.go`: `BitRate = SampleRate * BitsPerSample * Channels`,
1 536 000 bits per second of PCM. -/
def BitRate : Nat := SampleRate * BitsPerSample * Channels

/-- `PlaylistItem` from `jukebox.go`: `id int`, `path string`,
`seek time.Duration`. -/
structure PlaylistItem where
  id : Int
  path : String
  seek : Duration
deriving DecidableEq, Repr

/-- `NewPlaylistItem(id, path)` returns `&PlaylistItem{id: id, path: path}`;
the `seek` field takes Go's zero value, 0. -/
def NewPlaylistItem (id : Int) (path : String) : PlaylistItem :=
  { id := id, path := path, seek := 0 }

/-- The observable state of the `Player` the engine holds.  The interface
(`player.go`) exposes `Pause/Play/IsPlaying/Reset/Volume/SetVolume/
UnplayedBufferSize/Close`; the engine only stores and reads these, so the
player is modelled by the values those accessors return.  `volume` is a
`float64` in Go used purely as a stored value (never arithmetic), carried
here as `Rat`; `unplayed` is the Go `int` returned by
`UnplayedBufferSize`. -/
structure Player where
  playing : Bool
  volume : Rat
  unplayed : Int
deriving DecidableEq, Repr

/-- `Player.Reset` per the interface contract and the in-repo mock player:
discards the unplayed buffer and stops playback. -/
def playerResetOp (p : Player) : Player :=
  { p with playing := false, unplayed := 0 }

/-- Externally observable calls a `Jukebox` method performs: a send on the
`next` control channel, calls into the `Player`, closing the `quit` channel,
and `log.Printf` output on a transcode error. -/
inductive Effect where
  | nextSignal
  | playerPlay
  | playerPause
  | playerReset
  | playerClose
  | quitClosed
  | logError
deriving DecidableEq, Repr

/-- The `Jukebox` struct from `jukebox.go`, restricted to the state the
claims are about: the cursor `i` (Go `int`), the item list `items`, the
byte counter of the counting pipe reader `pcmr` (`count`, a `uint64` kept
below 2^64), and the player.  The lock `itemsmu` serializes the methods;
in this sequential model each method is a single atomic step, which is
exactly the linearization the lock provides. -/
structure Jukebox where
  i : Int
  items : List PlaylistItem
  count : Nat
  player : Player
deriving DecidableEq, Repr

/-- The engine state right after `New`: Go zero values for the cursor, the
item list and the pipe counter; the player is whatever the injected factory
produced. -/
def initialJukebox (p : Player) : Jukebox :=
  { i := 0, items := [], count := 0, player := p }

/-- The player the test double starts with (`mockPlayer{gain: 1}`): not
playing, volume 1, empty unplayed buffer. -/
def mockPlayerInit : Player :=
  { playing := false, volume := 1, unplayed := 0 }

/-- `inbounds(length, i)` from `jukebox.go`:
`length > 0 && i >= 0 && i < length`. -/
def inbounds (length i : Int) : Bool :=
  decide (0 < length) && decide (0 ≤ i) && decide (i < length)

/-- `Current()` from `jukebox.go`: under the read lock, if
`!inbounds(len(j.items), j.i)` return `ErrOOB`, otherwise return
`j.items[j.i]`.  `none` stands for the `ErrOOB` outcome. -/
def Current (j : Jukebox) : Option PlaylistItem :=
  if inbounds (j.items.length : Int) j.i then j.items[j.i.toNat]? else none

/-- `GetItems()` from `jukebox.go`: a snapshot copy of the item list. -/
def GetItems (j : Jukebox) : List PlaylistItem := j.items

/-- `SetItems(items)` from `jukebox.go`: under the write lock replace
`j.items` with `items` — the cursor `j.i` is not touched — then send on
`next`. -/
def SetItems (j : Jukebox) (items : List PlaylistItem) : Jukebox × List Effect :=
  ({ j with items := items }, [Effect.nextSignal])

/-- `AppendItems(items)` from `jukebox.go`: under the write lock append
`items` to `j.items`; nothing else happens, no signal is sent. -/
def AppendItems (j : Jukebox) (items : List PlaylistItem) : Jukebox × List Effect :=
  ({ j with items := j.items ++ items }, [])

/-- `RemoveItem(i)` from `jukebox.go`: under the write lock, if `i` is in
bounds delete the element at `i` (`append(j.items[:i], j.items[i+1:]...)`),
otherwise do nothing. -/
def RemoveItem (j : Jukebox) (i : Int) : Jukebox × List Effect :=
  if inbounds (j.items.length : Int) i then
    ({ j with items := j.items.eraseIdx i.toNat }, [])
  else (j, [])

/-- `ClearItems()` from `jukebox.go`: under the write lock set `j.i = 0`,
empty the item list, call `j.player.Reset()` and `j.pcmr.Reset()` (which
zeros the pipe byte counter). -/
def ClearItems (j : Jukebox) : Jukebox × List Effect :=
  ({ j with i := 0, items := [], player := playerResetOp j.player, count := 0 },
   [Effect.playerReset])

/-- `Pause()` from `jukebox.go`: `j.player.Pause()`. -/
def Pause (j : Jukebox) : Jukebox × List Effect :=
  ({ j with player := { j.player with playing := false } }, [Effect.playerPause])

/-- `Play()` from `jukebox.go`: `j.player.Play()`. -/
def Play (j : Jukebox) : Jukebox × List Effect :=
  ({ j with player := { j.player with playing := true } }, [Effect.playerPlay])

/-- Replace the `seek` field of the item at position `n`, leaving every
other item alone: the effect of Go's `j.items[n].seek = d`. -/
def setSeek : List PlaylistItem → Nat → Duration → List PlaylistItem
  | [], _, _ => []
  | p :: ps, 0, d => { p with seek := d } :: ps
  | p :: ps, Nat.succ n, d => p :: setSeek ps n d

/-- `Skip(i, offsetSecs)` from `jukebox.go`: under the write lock, if `i`
is out of bounds do nothing; otherwise set the cursor to `i`, set
`j.items[i].seek = time.Duration(offsetSecs) * time.Second` (an `int64`
multiplication that wraps on overflow), call `j.player.Play()` and send on
`next`. -/
def Skip (j : Jukebox) (i offsetSecs : Int) : Jukebox × List Effect :=
  if inbounds (j.items.length : Int) i then
    ({ j with
        i := i,
        items := setSeek j.items i.toNat (durFromSecs offsetSecs),
        player := { j.player with playing := true } },
     [Effect.playerPlay, Effect.nextSignal])
  else (j, [])

/-- `SetGain(v)` from `jukebox.go`: `j.player.SetVolume(v)`. -/
def SetGain (j : Jukebox) (v : Rat) : Jukebox × List Effect :=
  ({ j with player := { j.player with volume := v } }, [])

/-- `GetGain()` from `jukebox.go`: `j.player.Volume()`. -/
def GetGain (j : Jukebox) : Rat := j.player.volume

/-- `Quit()` from `jukebox.go`: under the write lock zero the cursor, empty
the list, reset the pipe, close the player and close the `quit` channel. -/
def Quit (j : Jukebox) : Jukebox × List Effect :=
  ({ j with i := 0, items := [], count := 0 },
   [Effect.playerClose, Effect.quitClosed])

/-- The `Status` struct from `jukebox.go`. -/
structure Status where
  CurrentIndex : Int
  Playing : Bool
  Gain : Rat
  Position : Int
deriving DecidableEq, Repr

/-- `GetStatus()` from `jukebox.go`: under the read lock fill
`CurrentIndex`, `Playing`, `Gain` from the state; if the cursor is out of
bounds return with `Position` still at its zero value; otherwise
`playedBytes = j.pcmr.Count() - uint64(j.player.UnplayedBufferSize())`
(`uint64` arithmetic), `playedSecs = playedBytes / (BitRate/8)` (`uint64`
division), and `Position = int(playedSecs) + int(item.seek.Seconds())`.
The guard-then-index on the cursor is the same computation as `Current`,
so it is expressed through `Current` here. -/
def GetStatus (j : Jukebox) : Status :=
  let s0 : Status :=
    { CurrentIndex := j.i, Playing := j.player.playing,
      Gain := j.player.volume, Position := 0 }
  match Current j with
  | none => s0
  | some item =>
      let playedBytes : Nat := u64sub (u64 j.count) (u64ofInt j.player.unplayed)
      let playedSecs : Nat := playedBytes / (BitRate / 8)
      { s0 with Position := intOfU64 playedSecs + seekSecs item.seek }

/-- Outcome of the `j.transcoder.Transcode(...)` call inside a decode
session: it returned `nil` or a non-`nil` error. -/
inductive TranscodeResult where
  | ok
  | errored
deriving DecidableEq, Repr

/-- One run of the `decode` closure inside `DecodeStream` (`jukebox.go`).
`bytesRead` abstracts how many bytes the player pulled through the counting
pipe while the transcoder ran.  The body: read `Current()`; on `ErrOOB`
call `ClearItems` and return (the deferred `j.pcmr.Reset()` still runs);
otherwise invoke the transcoder (an error is only logged), increment the
cursor under the write lock, send on `next`, and finally run the deferred
`j.pcmr.Reset()`. -/
def decodeSession (j : Jukebox) (outcome : TranscodeResult) (bytesRead : Nat) :
    Jukebox × List Effect :=
  match Current j with
  | none =>
      let r := ClearItems j
      ({ r.1 with count := 0 }, r.2)
  | some _item =>
      let logs : List Effect :=
        match outcome with
        | TranscodeResult.ok => []
        | TranscodeResult.errored => [Effect.logError]
      let afterTranscode : Jukebox := { j with count := u64 (j.count + bytesRead) }
      let afterAdvance : Jukebox := { afterTranscode with i := afterTranscode.i + 1 }
      ({ afterAdvance with count := 0 }, logs ++ [Effect.nextSignal])

/-- The three arms of the `select` in the `DecodeStream` loop. -/
inductive SelectArm where
  | onNext
  | onCancel
  | onQuit
deriving DecidableEq, Repr

/-- What one iteration of the `for { select { ... } }` loop in
`DecodeStream` does in its own body: whether the loop body itself calls
`cancel()` on the iteration's context, and whether the `for` loop proceeds
to another iteration afterwards.  In the `next` arm the loop only spawns
the decode goroutine (that goroutine calls `cancel()` later).  In the
`quit` arm the code runs `cancel()` and then `break`; in Go a `break`
inside a `select` terminates the `select` statement only, not the
enclosing `for`, so execution falls out of the `select` and the `for`
iterates again. -/
structure IterOutcome where
  firedCancel : Bool
  loopContinues : Bool
deriving DecidableEq, Repr

/-- Per-arm behaviour of one `DecodeStream` loop iteration, read off the
`select` statement in `jukebox.go`. -/
def decodeStreamIter : SelectArm → IterOutcome
  | SelectArm.onNext => { firedCancel := false, loopContinues := true }
  | SelectArm.onCancel => { firedCancel := true, loopContinues := true }
  | SelectArm.onQuit => { firedCancel := true, loopContinues := true }

/-- How many events from a pending sequence the `DecodeStream` loop
consumes: it takes events one per iteration and stops only when an
iteration ends with `loopContinues = false`.  After `Quit()` has closed
the `quit` channel, the `onQuit` arm is permanently ready, and any arm
whose channel is also ready may still be selected. -/
def loopConsumes : List SelectArm → Nat
  | [] => 0
  | a :: rest =>
      if (decodeStreamIter a).loopContinues then 1 + loopConsumes rest else 1

/-- The operations external callers and the decode loop can apply to the
engine, for reasoning about every reachable state. -/
inductive Op where
  | setItems (its : List PlaylistItem)
  | appendItems (its : List PlaylistItem)
  | removeItem (i : Int)
  | clearItems
  | skip (i offsetSecs : Int)
  | play
  | pause
  | setGain (g : Rat)
  | decode (outcome : TranscodeResult) (bytesRead : Nat)
deriving DecidableEq

/-- State transition of one operation (dropping the emitted effects). -/
def step (j : Jukebox) : Op → Jukebox
  | Op.setItems its => (SetItems j its).1
  | Op.appendItems its => (AppendItems j its).1
  | Op.removeItem i => (RemoveItem j i).1
  | Op.clearItems => (ClearItems j).1
  | Op.skip i offsetSecs => (Skip j i offsetSecs).1
  | Op.play => (Play j).1
  | Op.pause => (Pause j).1
  | Op.setGain g => (SetGain j g).1
  | Op.decode outcome bytesRead => (decodeSession j outcome bytesRead).1

/-- Run a sequence of operations from a starting state. -/
def run (j : Jukebox) (ops : List Op) : Jukebox := ops.foldl step j

/-- Every item in the playlist has a non-negative `seek`. -/
def seekNonneg (j : Jukebox) : Bool := j.items.all (fun p => decide (0 ≤ p.seek))

/-- Operations as issued by well-behaved callers: items handed to
`SetItems`/`AppendItems` are freshly built by `NewPlaylistItem` (so their
`seek` is non-negative), and `Skip` offsets are non-negative and small
enough that `offsetSecs * time.Second` does not overflow `int64`. -/
def goodOp : Op → Bool
  | Op.setItems its => its.all (fun p => decide (0 ≤ p.seek))
  | Op.appendItems its => its.all (fun p => decide (0 ≤ p.seek))
  | Op.skip _ offsetSecs => decide (0 ≤ offsetSecs) && decide (offsetSecs ≤ 9223372036)
  | _ => true

/-- Concrete playlist items, as a caller would build them with
`NewPlaylistItem`. -/
def itemA : PlaylistItem := NewPlaylistItem 0 "a"

/-- Second concrete item. -/
def itemB : PlaylistItem := NewPlaylistItem 1 "b"

/-- Third concrete item. -/
def itemC : PlaylistItem := NewPlaylistItem 2 "c"

/-- Fourth concrete item. -/
def itemD : PlaylistItem := NewPlaylistItem 3 "d"

/-- Reachable state: fresh engine, then `SetItems([a])`. -/
def singleItemState : Jukebox :=
  (SetItems (initialJukebox mockPlayerInit) [itemA]).1

/-- Reachable state: fresh engine, then `SetItems([a, b])`. -/
def twoItemState : Jukebox :=
  (SetItems (initialJukebox mockPlayerInit) [itemA, itemB]).1

/-- Reachable state with the cursor away from 0: fresh engine,
`SetItems([a, b])`, then `Skip(1, 0)`. -/
def cursorOneState : Jukebox := (Skip twoItemState 1 0).1

/-- The state reached from `cursorOneState` by `SetItems([c, d])`. -/
def afterSetAtCursorOne : Jukebox := (SetItems cursorOneState [itemC, itemD]).1

/-- A concrete item with a two-second seek, as `Skip(_, 2)` would leave it. -/
def seekTwoItem : PlaylistItem := { id := 0, path := "x", seek := 2000000000 }

/-- A concrete mid-playback state for status evaluation: one item with a
2 s seek, 384 123 bytes counted through the pipe, 10 of them still
unplayed. -/
def midPlayState : Jukebox :=
  { i := 0, items := [seekTwoItem], count := 384123,
    player := { playing := true, volume := 1, unplayed := 10 } }

/-- A concrete sequence of well-behaved operations. -/
def sampleOps : List Op :=
  [Op.setItems [itemA, itemB], Op.skip 0 5, Op.appendItems [itemC],
   Op.removeItem 0, Op.decode TranscodeResult.ok 100, Op.play, Op.clearItems]

/-- Unfolding of the `inbounds` check into its three comparisons. -/
theorem inbounds_eq_true_iff (length i : Int) :
    inbounds length i = true ↔ 0 < length ∧ 0 ≤ i ∧ i < length := by
  simp [inbounds, and_assoc]

/-- An in-bounds cursor, converted to `Nat`, is a valid list index. -/
theorem inbounds_toNat_lt {l : List PlaylistItem} {i : Int}
    (h : inbounds (l.length : Int) i = true) : i.toNat < l.length := by
  rw [inbounds_eq_true_iff] at h
  omega

/-- Integers already inside `int64` range are fixed by `int64Wrap`. -/
theorem int64Wrap_eq_self {x : Int} (h1 : -(wordHalf : Int) ≤ x)
    (h2 : x < (wordHalf : Int)) : int64Wrap x = x := by
  simp only [int64Wrap, wordHalf, wordMod] at *
  omega

/-- For offsets small enough that `offsetSecs * time.Second` does not
overflow `int64`, the Go multiplication is the exact one. -/
theorem durFromSecs_eq_mul {o : Int} (h1 : -9223372036 ≤ o) (h2 : o ≤ 9223372036) :
    durFromSecs o = o * nsPerSec := by
  unfold durFromSecs
  apply int64Wrap_eq_self
  · simp only [nsPerSec, wordHalf]
    omega
  · simp only [nsPerSec, wordHalf]
    omega

/-- `u64` is the identity below 2^64. -/
theorem u64_eq_of_lt {n : Nat} (h : n < wordMod) : u64 n = n := by
  simpa [u64] using Nat.mod_eq_of_lt h

/-- `uint64` subtraction agrees with `Nat` subtraction when it cannot
wrap. -/
theorem u64sub_eq_sub {a b : Nat} (hb : b ≤ a) (ha : a < wordMod) :
    u64sub a b = a - b := by
  simp only [u64sub, wordMod] at *
  omega

/-- Converting a non-negative, in-range `int` to `uint64` is `Int.toNat`. -/
theorem u64ofInt_eq_toNat {x : Int} (h0 : 0 ≤ x) (h1 : x < (wordMod : Int)) :
    u64ofInt x = x.toNat := by
  simp only [u64ofInt, wordMod] at *
  omega

/-- Reinterpreting a `uint64` below 2^63 as `int` is the plain cast. -/
theorem intOfU64_small {n : Nat} (h : n < wordHalf) : intOfU64 n = (n : Int) := by
  have hlt : n < wordMod := by
    simp only [wordHalf, wordMod] at *
    omega
  have hm : n % wordMod = n := Nat.mod_eq_of_lt hlt
  simp only [intOfU64, hm]
  rw [if_pos h]

/-- `setSeek` rewrites the seek of the item at the target position. -/
theorem setSeek_getElem_eq (l : List PlaylistItem) (n : Nat) (d : Duration) :
    (setSeek l n d)[n]? = (l[n]?).map (fun p => { p with seek := d }) := by
  induction l generalizing n with
  | nil => simp [setSeek]
  | cons p ps ih =>
      cases n with
      | zero => simp [setSeek]
      | succ m => simpa [setSeek] using ih m

/-- `setSeek` leaves every other position untouched. -/
theorem setSeek_getElem_ne (l : List PlaylistItem) (n k : Nat) (d : Duration)
    (h : k ≠ n) : (setSeek l n d)[k]? = l[k]? := by
  induction l generalizing n k with
  | nil => simp [setSeek]
  | cons p ps ih =>
      cases n with
      | zero =>
          cases k with
          | zero => exact absurd rfl h
          | succ kk => simp [setSeek]
      | succ m =>
          cases k with
          | zero => simp [setSeek]
          | succ kk => simpa [setSeek] using ih m kk (by omega)

/-- `setSeek` preserves the length of the list. -/
theorem setSeek_length (l : List PlaylistItem) (n : Nat) (d : Duration) :
    (setSeek l n d).length = l.length := by
  induction l generalizing n with
  | nil => simp [setSeek]
  | cons p ps ih =>
      cases n with
      | zero => simp [setSeek]
      | succ m => simpa [setSeek] using ih m

/-- Writing a non-negative seek keeps all seeks non-negative. -/
theorem setSeek_all_nonneg (l : List PlaylistItem) (n : Nat) (d : Duration)
    (hl : l.all (fun p => decide (0 ≤ p.seek)) = true) (hd : 0 ≤ d) :
    (setSeek l n d).all (fun p => decide (0 ≤ p.seek)) = true := by
  induction l generalizing n with
  | nil => simp [setSeek]
  | cons p ps ih =>
      simp only [List.all_cons, Bool.and_eq_true, decide_eq_true_eq] at hl
      cases n with
      | zero => simp [setSeek, List.all_cons, hd, hl.2]
      | succ m => simp [setSeek, List.all_cons, hl.1, ih m hl.2]

/-- Removing an element keeps all seeks non-negative. -/
theorem eraseIdx_all_nonneg {l : List PlaylistItem} {n : Nat}
    (h : l.all (fun p => decide (0 ≤ p.seek)) = true) :
    (l.eraseIdx n).all (fun p => decide (0 ≤ p.seek)) = true := by
  rw [List.all_eq_true] at h ⊢
  intro x hx
  exact h x (List.eraseIdx_subset l n hx)

/-- Every single well-behaved operation preserves non-negativity of all
seeks. -/
theorem step_seekNonneg (j : Jukebox) (op : Op) (hj : seekNonneg j = true)
    (hop : goodOp op = true) : seekNonneg (step j op) = true := by
  cases op with
  | setItems its => simpa [step, SetItems, seekNonneg, goodOp] using hop
  | appendItems its =>
      simp only [goodOp] at hop
      simp only [seekNonneg] at hj
      simp only [step, AppendItems, seekNonneg, List.all_append, Bool.and_eq_true]
      exact ⟨hj, hop⟩
  | removeItem i =>
      simp only [step, RemoveItem]
      split
      · simpa [seekNonneg] using eraseIdx_all_nonneg (by simpa [seekNonneg] using hj)
      · exact hj
  | clearItems => simp [step, ClearItems, seekNonneg]
  | skip i offsetSecs =>
      simp only [goodOp, Bool.and_eq_true, decide_eq_true_eq] at hop
      obtain ⟨h0, h1⟩ := hop
      simp only [step, Skip]
      split
      · simp only [seekNonneg] at hj ⊢
        refine setSeek_all_nonneg _ _ _ hj ?_
        rw [durFromSecs_eq_mul (by omega) h1]
        exact mul_nonneg h0 (by norm_num [nsPerSec])
      · exact hj
  | play => simpa [step, Play, seekNonneg] using hj
  | pause => simpa [step, Pause, seekNonneg] using hj
  | setGain g => simpa [step, SetGain, seekNonneg] using hj
  | decode outcome bytesRead =>
      simp only [step, decodeSession]
      cases hc : Current j with
      | none => simp [ClearItems, seekNonneg]
      | some it => simpa [seekNonneg] using hj

/-- Non-negativity of all seeks is invariant under any sequence of
well-behaved operations. -/
theorem run_seekNonneg (ops : List Op) : ∀ j : Jukebox, seekNonneg j = true →
    (∀ op ∈ ops, goodOp op = true) → seekNonneg (run j ops) = true := by
  induction ops with
  | nil => intro j hj _; simpa [run] using hj
  | cons a rest ih =>
      intro j hj hops
      have ha := hops a (List.mem_cons_self a rest)
      have hrest : ∀ op ∈ rest, goodOp op = true :=
        fun op hop => hops op (List.mem_cons_of_mem a hop)
      exact ih (step j a) (step_seekNonneg j a hj ha) hrest

/-- C1, counterexample: `SetItems` does not reset the cursor.  From a fresh
engine, `SetItems([a, b])` then `Skip(1, 0)` leaves the cursor at 1; a
further `SetItems([c, d])` keeps the cursor at 1, so `Current()` returns
item `d`, not the first element `c` of the new list. -/
theorem setItems_cursor_not_reset :
    afterSetAtCursorOne.items = [itemC, itemD]
    ∧ afterSetAtCursorOne.i = 1
    ∧ ¬ afterSetAtCursorOne.i = 0
    ∧ Current afterSetAtCursorOne = some itemD
    ∧ ¬ Current afterSetAtCursorOne = some itemC := by decide

/-- C1, amended: after `SetItems(items)` the playlist contents equal
`items`, a `next` signal is sent, and the cursor is left unchanged (not
reset to 0); consequently a `Current()` immediately after returns
`items[0]` when `items` is non-empty and the cursor was 0 beforehand. -/
theorem setItems_contents_cursor_unchanged (j : Jukebox) (its : List PlaylistItem) :
    (SetItems j its).1.items = its
    ∧ (SetItems j its).1.i = j.i
    ∧ Effect.nextSignal ∈ (SetItems j its).2
    ∧ (j.i = 0 → its ≠ [] → Current (SetItems j its).1 = its[0]?) := by
  refine ⟨rfl, rfl, by simp [SetItems], ?_⟩
  intro h0 hne
  have hlen : 0 < its.length := List.length_pos.mpr hne
  have hb : inbounds (its.length : Int) 0 = true := by
    rw [inbounds_eq_true_iff]
    omega
  simp only [Current, SetItems, h0]
  simp [hb]

/-- C1, witness: on a fresh engine (cursor 0), `SetItems([a, b])` followed
by `Current()` yields item `a`. -/
theorem setItems_contents_cursor_unchanged_witness :
    Current (SetItems (initialJukebox mockPlayerInit) [itemA, itemB]).1 = some itemA := by
  have h := (setItems_contents_cursor_unchanged (initialJukebox mockPlayerInit)
    [itemA, itemB]).2.2.2 rfl (by decide)
  simpa using h

/-- C6: after `ClearItems()` the cursor is 0, the item list is empty, the
pipe byte counter is 0, and the player has been reset. -/
theorem clearItems_spec (j : Jukebox) :
    (ClearItems j).1.i = 0
    ∧ (ClearItems j).1.items = []
    ∧ (ClearItems j).1.count = 0
    ∧ (ClearItems j).1.player = playerResetOp j.player
    ∧ Effect.playerReset ∈ (ClearItems j).2 := by
  simp [ClearItems]

/-- C7: `Current()` returns the item at the cursor exactly when the cursor
is in bounds, and signals out-of-bounds (`none`) otherwise; on an empty
list it is out-of-bounds for every cursor value. -/
theorem current_spec (j : Jukebox) :
    ((Current j).isSome = inbounds (j.items.length : Int) j.i)
    ∧ (inbounds (j.items.length : Int) j.i = true → Current j = j.items[j.i.toNat]?)
    ∧ (inbounds (j.items.length : Int) j.i = false → Current j = none)
    ∧ (j.items = [] → Current j = none) := by
  refine ⟨?_, ?_, ?_, ?_⟩
  · cases hb : inbounds (j.items.length : Int) j.i with
    | false => simp [Current, hb]
    | true =>
        have hlt := inbounds_toNat_lt hb
        simp [Current, hb, List.getElem?_eq_getElem hlt]
  · intro hb
    simp [Current, hb]
  · intro hb
    simp [Current, hb]
  · intro hempty
    simp [Current, hempty, inbounds]

/-- C7, witness: with two items and cursor 0 the current item is `a`; on a
fresh engine with no items, `Current()` is out of bounds. -/
theorem current_spec_witness :
    Current twoItemState = some itemA
    ∧ Current (initialJukebox mockPlayerInit) = none := by
  constructor
  · rw [(current_spec twoItemState).2.1 (by decide)]
    decide
  · exact (current_spec (initialJukebox mockPlayerInit)).2.2.2 rfl

/-- C9: appending `A` and then `B` leaves the same playlist contents as
replacing the list with `prev ++ A ++ B`. -/
theorem append_append_eq_set (j : Jukebox) (A B : List PlaylistItem) :
    (AppendItems (AppendItems j A).1 B).1.items
      = (SetItems j (j.items ++ A ++ B)).1.items := by
  simp [AppendItems, SetItems]

/-- C10: `AppendItems` only extends the item sequence: the cursor, the pipe
byte counter and the player state are untouched and no signal at all is
emitted — in particular no `next` signal, unlike `SetItems`, which does
emit one. -/
theorem appendItems_frame (j : Jukebox) (its : List PlaylistItem) :
    (AppendItems j its).1.items = j.items ++ its
    ∧ (AppendItems j its).1.i = j.i
    ∧ (AppendItems j its).1.count = j.count
    ∧ (AppendItems j its).1.player = j.player
    ∧ (AppendItems j its).2 = []
    ∧ Effect.nextSignal ∉ (AppendItems j its).2
    ∧ Effect.nextSignal ∈ (SetItems j its).2 := by
  simp [AppendItems, SetItems]

/-- C2: `GetStatus` always reports the cursor and the player's playing
flag and gain; when the cursor is in bounds, `Position` is the `uint64`
quantity `pipe.Count() - player.UnplayedBufferSize()` divided by 192000
(integer division) plus the current item's seek truncated to whole
seconds — which, whenever the unplayed count does not exceed the byte
counter and the counter is in `int64` range, is the plain arithmetic
`(count - unplayed) / 192000 + seekSecs`; when the cursor is out of
bounds, `Position` is 0 while `Playing` and `Gain` still reflect the
player state. -/
theorem getStatus_spec (j : Jukebox) :
    (GetStatus j).CurrentIndex = j.i
    ∧ (GetStatus j).Playing = j.player.playing
    ∧ (GetStatus j).Gain = j.player.volume
    ∧ (∀ item, Current j = some item →
        (GetStatus j).Position =
          intOfU64 (u64sub (u64 j.count) (u64ofInt j.player.unplayed) / 192000)
            + seekSecs item.seek)
    ∧ (Current j = none → (GetStatus j).Position = 0)
    ∧ (∀ item, Current j = some item → 0 ≤ j.player.unplayed →
        j.player.unplayed.toNat ≤ j.count → j.count < wordHalf →
        (GetStatus j).Position =
          (((j.count - j.player.unplayed.toNat) / 192000 : Nat) : Int)
            + seekSecs item.seek) := by
  have hBR : BitRate / 8 = 192000 := by decide
  refine ⟨?_, ?_, ?_, ?_, ?_, ?_⟩
  · cases hc : Current j <;> simp [GetStatus, hc]
  · cases hc : Current j <;> simp [GetStatus, hc]
  · cases hc : Current j <;> simp [GetStatus, hc]
  · intro item hitem
    simp [GetStatus, hitem, hBR]
  · intro hnone
    simp [GetStatus, hnone]
  · intro item hitem h0 hle hlt
    have hcm : j.count < wordMod := by
      simp only [wordHalf, wordMod] at *
      omega
    have hxm : (j.player.unplayed : Int) < (wordMod : Int) := by
      simp only [wordHalf, wordMod] at *
      omega
    have hdivlt : (j.count - j.player.unplayed.toNat) / 192000 < wordHalf :=
      lt_of_le_of_lt (le_trans (Nat.div_le_self _ _) (Nat.sub_le _ _)) hlt
    simp only [GetStatus, hitem, hBR]
    rw [u64_eq_of_lt hcm, u64ofInt_eq_toNat h0 hxm, u64sub_eq_sub hle hcm,
      intOfU64_small hdivlt]

/-- C2, witness: in the concrete mid-playback state, 384 123 bytes counted
minus 10 unplayed is 384 113 bytes, 2 whole seconds at 192 000 bytes/s,
plus the 2 s seek gives `Position = 4`; on a fresh engine with no items,
`Position = 0` while `Playing`/`Gain` come from the player. -/
theorem getStatus_spec_witness :
    (GetStatus midPlayState).Position = 4
    ∧ (GetStatus (initialJukebox mockPlayerInit)).Position = 0 := by
  constructor
  · have h := (getStatus_spec midPlayState).2.2.2.2.2 seekTwoItem
      (by decide) (by decide) (by decide) (by decide)
    rw [h]
    decide
  · exact (getStatus_spec (initialJukebox mockPlayerInit)).2.2.2.2.1 rfl

/-- C3: the `quit` arm of the `DecodeStream` select fires the cancellation
token, but its `break` statement only terminates the `select`, not the
enclosing `for`, so the loop runs further iterations: a pending sequence
`[quit, next]` has both events consumed by the loop. -/
theorem decodeStream_quit_loop_continues :
    (decodeStreamIter SelectArm.onQuit).firedCancel = true
    ∧ (decodeStreamIter SelectArm.onQuit).loopContinues = true
    ∧ loopConsumes [SelectArm.onQuit, SelectArm.onNext] = 2 := by decide

/-- C4: when the cursor is in bounds, a decode session whose transcode
call errors produces exactly the same engine state as a successful one —
pipe counter reset to 0 and cursor advanced by exactly 1 — and both emit
the `next` signal; the error is only logged. -/
theorem decode_error_tail_eq_ok (j : Jukebox) (bytesRead : Nat) (item : PlaylistItem)
    (h : Current j = some item) :
    (decodeSession j TranscodeResult.errored bytesRead).1
      = (decodeSession j TranscodeResult.ok bytesRead).1
    ∧ (decodeSession j TranscodeResult.errored bytesRead).1.count = 0
    ∧ (decodeSession j TranscodeResult.errored bytesRead).1.i = j.i + 1
    ∧ Effect.nextSignal ∈ (decodeSession j TranscodeResult.errored bytesRead).2
    ∧ Effect.nextSignal ∈ (decodeSession j TranscodeResult.ok bytesRead).2 := by
  simp [decodeSession, h]

/-- C4, witness: in the one-item state a failed decode session ends with
counter 0, the cursor advanced from 0 to 1, and the same state a
successful session reaches. -/
theorem decode_error_tail_eq_ok_witness :
    (decodeSession singleItemState TranscodeResult.errored 5).1
      = (decodeSession singleItemState TranscodeResult.ok 5).1
    ∧ (decodeSession singleItemState TranscodeResult.errored 5).1.count = 0
    ∧ (decodeSession singleItemState TranscodeResult.errored 5).1.i = 1 := by
  have h := decode_error_tail_eq_ok singleItemState 5 itemA (by decide)
  refine ⟨h.1, h.2.1, ?_⟩
  rw [h.2.2.1]
  decide

/-- C5, counterexample: `Skip(0, 10_000_000_000)` on a one-item playlist
does not set the item's seek to 10 000 000 000 seconds: the Go `int64`
multiplication `time.Duration(offsetSecs) * time.Second` overflows and
stores a negative duration instead. -/
theorem skip_overflow_seek :
    (Skip singleItemState 0 10000000000).1.items.map PlaylistItem.seek
      ≠ [10000000000 * nsPerSec]
    ∧ (Skip singleItemState 0 10000000000).1.items.map PlaylistItem.seek
      = [-8446744073709551616] := by decide

/-- C5, amended: for an in-bounds `i`, `Skip(i, offsetSecs)` sets the
cursor to `i`, overwrites item `i`'s seek with the 64-bit duration
`offsetSecs * time.Second` (equal to `offsetSecs` whole seconds whenever
`|offsetSecs| ≤ 9223372036`, i.e. when the multiplication does not
overflow), leaves every other item unchanged, starts the player and emits
a `next` signal; for an out-of-bounds `i` it changes nothing and emits
nothing. -/
theorem skip_spec (j : Jukebox) (i offsetSecs : Int) :
    (inbounds (j.items.length : Int) i = true →
      (Skip j i offsetSecs).1.i = i
      ∧ ((Skip j i offsetSecs).1.items)[i.toNat]?
          = (j.items[i.toNat]?).map (fun p => { p with seek := durFromSecs offsetSecs })
      ∧ (∀ k : Nat, k ≠ i.toNat → ((Skip j i offsetSecs).1.items)[k]? = j.items[k]?)
      ∧ (Skip j i offsetSecs).1.player.playing = true
      ∧ (Skip j i offsetSecs).1.count = j.count
      ∧ Effect.playerPlay ∈ (Skip j i offsetSecs).2
      ∧ Effect.nextSignal ∈ (Skip j i offsetSecs).2
      ∧ (-9223372036 ≤ offsetSecs → offsetSecs ≤ 9223372036 →
          durFromSecs offsetSecs = offsetSecs * nsPerSec))
    ∧ (inbounds (j.items.length : Int) i = false →
        (Skip j i offsetSecs).1 = j ∧ (Skip j i offsetSecs).2 = []) := by
  constructor
  · intro hb
    refine ⟨?_, ?_, ?_, ?_, ?_, ?_, ?_, ?_⟩
    · simp [Skip, hb]
    · simp [Skip, hb, setSeek_getElem_eq]
    · intro k hk
      simp [Skip, hb, setSeek_getElem_ne _ _ _ _ hk]
    · simp [Skip, hb]
    · simp [Skip, hb]
    · simp [Skip, hb]
    · simp [Skip, hb]
    · intro h1 h2
      exact durFromSecs_eq_mul h1 h2
  · intro hb
    constructor <;> simp [Skip, hb]

/-- C5, witness: in the two-item state, `Skip(1, 7)` moves the cursor to
1, sets item 1's seek to 7 s (7 000 000 000 ns), leaves item 0 alone and
starts the player; `Skip(5, 0)` is out of bounds and changes nothing. -/
theorem skip_spec_witness :
    (Skip twoItemState 1 7).1.i = 1
    ∧ ((Skip twoItemState 1 7).1.items)[1]? = some { itemB with seek := 7000000000 }
    ∧ ((Skip twoItemState 1 7).1.items)[0]? = some itemA
    ∧ (Skip twoItemState 1 7).1.player.playing = true
    ∧ (Skip twoItemState 5 0).1 = twoItemState := by
  have h := (skip_spec twoItemState 1 7).1 (by decide)
  have hoob := ((skip_spec twoItemState 5 0).2 (by decide)).1
  refine ⟨h.1, ?_, ?_, h.2.2.2.1, hoob⟩
  · have h2 := h.2.1
    simp only [Int.toNat_one] at h2
    rw [h2]
    decide
  · rw [h.2.2.1 0 (by decide)]
    decide

/-- C8, counterexample: `Skip(0, -1)` on a one-item playlist stores a
negative seek (-1 s), so seeks are not non-negative in every reachable
state for arbitrary `offsetSecs` arguments. -/
theorem skip_negative_seek :
    seekNonneg (Skip singleItemState 0 (-1)).1 = false
    ∧ (Skip singleItemState 0 (-1)).1.items.map PlaylistItem.seek
      = [-1000000000] := by decide

/-- C8, amended: items are created by `NewPlaylistItem` with seek 0, and
every operation sequence in which each `Skip` uses an `offsetSecs` in
`[0, 9223372036]` (non-negative, no `int64` overflow) and each
`SetItems`/`AppendItems` passes items with non-negative seeks preserves
non-negativity of every item's seek. -/
theorem seek_nonneg_invariant (idv : Int) (pathv : String) (j : Jukebox)
    (ops : List Op) (hj : seekNonneg j = true)
    (hops : ∀ op ∈ ops, goodOp op = true) :
    (NewPlaylistItem idv pathv).seek = 0 ∧ seekNonneg (run j ops) = true :=
  ⟨rfl, run_seekNonneg ops j hj hops⟩

/-- C8, witness: running the concrete well-behaved operation sequence from
a fresh engine keeps every seek non-negative. -/
theorem seek_nonneg_invariant_witness :
    (NewPlaylistItem 9 "w").seek = 0
    ∧ seekNonneg (run (initialJukebox mockPlayerInit) sampleOps) = true :=
  seek_nonneg_invariant 9 "w" (initialJukebox mockPlayerInit) sampleOps
    (by decide) (by decide)

end Gonic
